import Mathlib

/-!
Verification development for the `myblog` static site generator.

The definitions below are a shallow embedding of the Python sources under
`_mblog/` (renderer.py, generator.py, markdown_processor.py): pure Python
functions become Lean functions, the in-place mutation of `Post` objects in
`Renderer.render_post` becomes explicit state passing, exceptions become
`Except`, and external library primitives (PBKDF2, AES-GCM, `strptime`,
the filesystem) become explicit parameters.  Bytes are `Nat` values with
explicit `< 256` bounds where they matter.
-/

namespace Mblog

/-- Calendar timestamp mirroring Python `datetime.datetime` values as used by
the blog (year, month, day, hour, minute, second). -/
structure DateTime where
  year : Nat
  month : Nat
  day : Nat
  hour : Nat := 0
  minute : Nat := 0
  second : Nat := 0
deriving DecidableEq

/-- Chronological order on `DateTime`: lexicographic on
(year, month, day, hour, minute, second), mirroring Python `datetime`
comparison. -/
def DateTime.le (a b : DateTime) : Prop :=
  a.year < b.year ∨ (a.year = b.year ∧
    (a.month < b.month ∨ (a.month = b.month ∧
      (a.day < b.day ∨ (a.day = b.day ∧
        (a.hour < b.hour ∨ (a.hour = b.hour ∧
          (a.minute < b.minute ∨ (a.minute = b.minute ∧
            a.second ≤ b.second)))))))))

instance DateTime.decLe : ∀ a b : DateTime, Decidable (DateTime.le a b) := by
  intro a b
  unfold DateTime.le
  infer_instance

/-- The 64-character Base64 alphabet used by Python `base64.b64encode`. -/
def b64Table : List Char :=
  ['A', 'B', 'C', 'D', 'E', 'F', 'G', 'H', 'I', 'J', 'K', 'L', 'M',
   'N', 'O', 'P', 'Q', 'R', 'S', 'T', 'U', 'V', 'W', 'X', 'Y', 'Z',
   'a', 'b', 'c', 'd', 'e', 'f', 'g', 'h', 'i', 'j', 'k', 'l', 'm',
   'n', 'o', 'p', 'q', 'r', 's', 't', 'u', 'v', 'w', 'x', 'y', 'z',
   '0', '1', '2', '3', '4', '5', '6', '7', '8', '9', '+', '/']

/-- Character of the Base64 alphabet at index `n` (< 64 in every use). -/
def b64Char (n : Nat) : Char := b64Table.getD n 'A'

/-- Index of a character in the Base64 alphabet (inverse of `b64Char`). -/
def b64Val (c : Char) : Nat := b64Table.indexOf c

/-- Base64 encoding of a byte list (standard RFC 4648 encoding with `=`
padding, as produced by Python `base64.b64encode`). -/
def b64Encode : List Nat → List Char
  | [] => []
  | [b1] =>
      [b64Char (b1 / 4), b64Char (b1 % 4 * 16), '=', '=']
  | [b1, b2] =>
      [b64Char (b1 / 4), b64Char (b1 % 4 * 16 + b2 / 16),
       b64Char (b2 % 16 * 4), '=']
  | b1 :: b2 :: b3 :: rest =>
      b64Char (b1 / 4) :: b64Char (b1 % 4 * 16 + b2 / 16) ::
      b64Char (b2 % 16 * 4 + b3 / 64) :: b64Char (b3 % 64) ::
      b64Encode rest

/-- Decode one Base64 quad (four characters, possibly `=`-padded) into one,
two or three bytes. -/
def b64DecodeQuad (c1 c2 c3 c4 : Char) : List Nat :=
  if c3 = '=' then
    [b64Val c1 * 4 + b64Val c2 / 16]
  else if c4 = '=' then
    [b64Val c1 * 4 + b64Val c2 / 16,
     b64Val c2 % 16 * 16 + b64Val c3 / 4]
  else
    [b64Val c1 * 4 + b64Val c2 / 16,
     b64Val c2 % 16 * 16 + b64Val c3 / 4,
     b64Val c3 % 4 * 64 + b64Val c4]

/-- Base64 decoding, processing four characters at a time. -/
def b64Decode : List Char → List Nat
  | c1 :: c2 :: c3 :: c4 :: rest => b64DecodeQuad c1 c2 c3 c4 ++ b64Decode rest
  | _ => []

/-- `PBKDF2_ITERATIONS` from renderer.py (OWASP recommended minimum). -/
def PBKDF2_ITERATIONS : Nat := 100000

/-- `KEY_SIZE` from renderer.py: 32 bytes = 256 bits. -/
def KEY_SIZE : Nat := 32

/-- `SALT_SIZE` from renderer.py: 16 bytes = 128 bits. -/
def SALT_SIZE : Nat := 16

/-- `NONCE_SIZE` from renderer.py: 12 bytes = 96 bits (recommended for GCM). -/
def NONCE_SIZE : Nat := 12

/-- UTF-8 encoding of a single character (the byte sequence Python
`str.encode` emits for one code point). -/
def utf8Char (c : Char) : List Nat :=
  let n := c.toNat
  if n < 128 then [n]
  else if n < 2048 then [192 + n / 64, 128 + n % 64]
  else if n < 65536 then [224 + n / 4096, 128 + n / 64 % 64, 128 + n % 64]
  else [240 + n / 262144, 128 + n / 4096 % 64, 128 + n / 64 % 64, 128 + n % 64]

/-- UTF-8 encoding of a string, modelling Python `content.encode('utf-8')`. -/
def utf8Bytes (s : String) : List Nat := (s.data.map utf8Char).flatten

/-- `Renderer._derive_key`: derive an encryption key of `KEY_SIZE` bytes from
the password with `PBKDF2_ITERATIONS` iterations and the given salt.  The
`cryptography` library primitive `PBKDF2HMAC(SHA256, length, salt, iterations)`
is an external collaborator and is passed in as
`pbkdf2_sha256 password salt iterations length`. -/
def derive_key (pbkdf2_sha256 : String → List Nat → Nat → Nat → List Nat)
    (password : String) (salt : List Nat) : List Nat :=
  pbkdf2_sha256 password salt PBKDF2_ITERATIONS KEY_SIZE

/-- `Renderer._encrypt_content`: AES-256-GCM encryption of the UTF-8 content
under a PBKDF2-derived key, returning
`base64(salt) ++ ":" ++ base64(nonce) ++ ":" ++ base64(ciphertext ++ tag)`.
The AES-GCM primitive of the `cryptography` library is passed in as two
functions `aes_gcm_encrypt key nonce plaintext` (the ciphertext produced by
`encryptor.update + finalize`) and `aes_gcm_tag key nonce plaintext`
(`encryptor.tag`); `salt` and `nonce` are the bytes drawn by the two
`os.urandom` calls, supplied by the environment. -/
def encrypt_content
    (pbkdf2_sha256 : String → List Nat → Nat → Nat → List Nat)
    (aes_gcm_encrypt : List Nat → List Nat → List Nat → List Nat)
    (aes_gcm_tag : List Nat → List Nat → List Nat → List Nat)
    (salt nonce : List Nat) (content password : String) : String :=
  let key := derive_key pbkdf2_sha256 password salt
  let ciphertext := aes_gcm_encrypt key nonce (utf8Bytes content)
  let ciphertext_with_tag := ciphertext ++ aes_gcm_tag key nonce (utf8Bytes content)
  let salt_b64 := b64Encode salt
  let nonce_b64 := b64Encode nonce
  let ciphertext_b64 := b64Encode ciphertext_with_tag
  String.mk (salt_b64 ++ ':' :: nonce_b64 ++ ':' :: ciphertext_b64)

/-- The `pagination` dict built by `Renderer.render_index` when
`posts_per_page` is a positive number. -/
structure Pagination where
  page : Nat
  total_pages : Nat
  total_posts : Nat
  has_prev : Bool
  has_next : Bool
  prev_page : Option Nat
  next_page : Option Nat
  prev_url : Option String
  next_url : Option String
deriving DecidableEq

/-- The pagination branch of `Renderer.render_index` (reached for
`posts_per_page > 0`): the slice `posts[start_idx:end_idx]` passed to the
template and the `pagination` descriptor.  `base_path` is the normalized site
base path (empty for root deployment). -/
def render_index_paginate {α : Type} (posts : List α) (page posts_per_page : Nat)
    (base_path : String) : List α × Pagination :=
  let total_posts := posts.length
  let total_pages := (total_posts + posts_per_page - 1) / posts_per_page
  let start_idx := (page - 1) * posts_per_page
  let sliced := (posts.drop start_idx).take posts_per_page
  let prev_url : Option String :=
    if page = 2 then some (base_path ++ "/")
    else if page > 1 then
      some (base_path ++ "/page/" ++ toString (page - 1) ++ ".html")
    else none
  let next_url : Option String :=
    if page < total_pages then
      some (base_path ++ "/page/" ++ toString (page + 1) ++ ".html")
    else none
  (sliced,
    { page := page
      total_pages := total_pages
      total_posts := total_posts
      has_prev := decide (page > 1)
      has_next := decide (page < total_pages)
      prev_page := if page > 1 then some (page - 1) else none
      next_page := if page < total_pages then some (page + 1) else none
      prev_url := prev_url
      next_url := next_url })

/-- The output paths written by `StaticGenerator._generate_index_pages`, in
write order: a single `index.html` when pagination is off (`posts_per_page`
absent or ≤ 0); otherwise one file per page in `range(1, total_pages + 1)`,
page 1 at `index.html` and every page `n ≥ 2` at `page/n.html`. -/
def generate_index_pages_paths (posts_per_page : Option Int)
    (total_posts : Nat) : List String :=
  match posts_per_page with
  | none => ["index.html"]
  | some pp =>
    if pp ≤ 0 then ["index.html"]
    else
      let total_pages := (total_posts + pp.toNat - 1) / pp.toNat
      (List.range' 1 total_pages).map fun page =>
        if page = 1 then "index.html" else "page/" ++ toString page ++ ".html"

/-- A frontmatter value (the YAML scalar/list types this code base
distinguishes; `other` stands for any further Python type). -/
inductive MetaValue where
  | s (v : String)
  | b (v : Bool)
  | dt (v : DateTime)
  | d (year month day : Nat)
  | strList (v : List String)
  | other (pyType : String)
deriving DecidableEq

/-- The `Post` dataclass from markdown_processor.py. -/
structure Post where
  filepath : String
  slug : String
  relative_path : String
  title : String
  date : DateTime
  author : String
  description : String
  tags : List String
  content : String
  html : String
  encrypted : Bool := false
  password : String := ""
  metadata : List (String × MetaValue) := []
  images : List String := []
deriving DecidableEq

/-- The fixed theme-lacks-encryption notice substituted by `render_post` when
the theme has no `encrypted_post` template. -/
def encryptedNotice : String :=
  "<div class=\"encrypted-notice\"><p>⚠️ 当前主题不支持加密文章功能</p><p>请更换支持加密的主题或联系主题开发者添加加密模板支持。</p></div>"

/-- `Renderer.render_post`, with the in-place mutation of `post.html` made
explicit: returns the render outcome together with the `Post` object as the
caller sees it afterwards.  `has_template` models `theme.has_template`;
`get_template name` models `theme.get_template` + `env.get_template`
(raising = `.error`); `render name post` models `template.render(post=post)`;
`encrypt` models `_encrypt_content post.html post.password` (total once the
salt/nonce draws are fixed).  In the source, the `except` clauses re-raise as
`RendererError` without restoring `post.html`. -/
def render_post (has_template : String → Bool)
    (get_template : String → Except String Unit)
    (render : String → Post → Except String String)
    (encrypt : String → String → String) (post : Post) :
    Except String String × Post :=
  if post.encrypted = true ∧ post.password ≠ "" then
    if has_template "encrypted_post" then
      let encrypted_html := encrypt post.html post.password
      match get_template "encrypted_post" with
      | .error e => (.error ("渲染加密文章失败: " ++ e), post)
      | .ok _ =>
        let original_html := post.html
        let post1 := { post with html := encrypted_html }
        match render "encrypted_post" post1 with
        | .ok html => (.ok html, { post1 with html := original_html })
        | .error e => (.error ("渲染加密文章失败: " ++ e), post1)
    else
      match get_template "post" with
      | .error e => (.error ("渲染文章页失败: " ++ e), post)
      | .ok _ =>
        let original_html := post.html
        let post1 := { post with html := encryptedNotice }
        match render "post" post1 with
        | .ok html => (.ok html, { post1 with html := original_html })
        | .error e => (.error ("渲染文章页失败: " ++ e), post1)
  else
    match get_template "post" with
    | .error e => (.error ("渲染文章页失败: " ++ e), post)
    | .ok _ =>
      match render "post" post with
      | .ok html => (.ok html, post)
      | .error e => (.error ("渲染文章页失败: " ++ e), post)

/-- The `date` frontmatter value as seen by `_parse_date`: the Python type
dispatch distinguishes `datetime`, `date`, `str` and everything else
(`other` carries the name of the offending type). -/
inductive DateValue where
  | dt (v : DateTime)
  | d (year month day : Nat)
  | s (v : String)
  | other (pyType : String)
deriving DecidableEq

/-- The five accepted date format strings of `_parse_date`, in source order. -/
def date_formats : List String :=
  ["%Y-%m-%d", "%Y/%m/%d", "%Y-%m-%d %H:%M:%S", "%Y/%m/%d %H:%M:%S",
   "%Y-%m-%dT%H:%M:%S"]

/-- The `for fmt in formats` loop of `_parse_date`: try each format in order,
the first one that parses wins. -/
def tryFormats (strptime : String → String → Option DateTime) (s : String) :
    List String → Option DateTime
  | [] => none
  | f :: fs =>
    match strptime s f with
    | some d => some d
    | none => tryFormats strptime s fs

/-- `MarkdownProcessor._parse_date`.  `strptime s fmt` is CPython's
`datetime.strptime` (an external collaborator): `some d` when the string
matches the format, `none` for `ValueError`.  A `datetime` value is returned
directly; a `date` value is combined with `datetime.min.time()` (midnight);
a string is tried against the five formats in order; any other type is an
error. -/
def parse_date (strptime : String → String → Option DateTime) :
    DateValue → Except String DateTime
  | .dt v => .ok v
  | .d y m dd => .ok { year := y, month := m, day := dd }
  | .s v =>
    match tryFormats strptime v date_formats with
    | some d => .ok d
    | none => .error ("无法解析日期格式: " ++ v)
  | .other t => .error ("不支持的日期类型: " ++ t)

/-- The frontmatter fields of a post document driving the title/date logic of
`parse_post` (`title` is a string per the data model; the `date` value keeps
its Python type). -/
structure Frontmatter where
  title : Option String
  date : Option DateValue
deriving DecidableEq

/-- Decimal digit character for `n < 10` (clamped at `'9'`). -/
def digitChar : Nat → Char
  | 0 => '0'
  | 1 => '1'
  | 2 => '2'
  | 3 => '3'
  | 4 => '4'
  | 5 => '5'
  | 6 => '6'
  | 7 => '7'
  | 8 => '8'
  | _ => '9'

/-- Decimal digit characters of `n`, most significant first. -/
def natDigits (n : Nat) : List Char :=
  if n < 10 then [digitChar n]
  else natDigits (n / 10) ++ [digitChar (n % 10)]
decreasing_by
  simp only [not_lt] at *
  omega

/-- Zero-padded two-digit field (`%m` and `%d` in `strftime`). -/
def pad2 (n : Nat) : List Char :=
  if n < 10 then '0' :: natDigits n else natDigits n

/-- `date.strftime('%Y-%m-%d')`. -/
def dateStr (d : DateTime) : List Char :=
  natDigits d.year ++ '-' :: (pad2 d.month ++ '-' :: pad2 d.day)

/-- The character class kept by the first substitution of `_generate_slug`,
`re.sub(r'[^\w\s一-鿿-]', '', ...)`: Python's `\w` (Unicode word
character), `\s` (whitespace) and the explicit CJK range are modelled by the
classifier parameters `wChar`, `sChar`, `cjkChar`. -/
def keep_char (wChar sChar cjkChar : Char → Bool) (c : Char) : Bool :=
  wChar c || sChar c || cjkChar c || c == '-'

/-- The second substitution of `_generate_slug`,
`re.sub(r'[\s_]+', '-', ...)`: collapse each maximal run of whitespace and
underscores into a single hyphen (`inRun` tracks being inside such a run). -/
def collapse_ws (sChar : Char → Bool) : Bool → List Char → List Char
  | _, [] => []
  | inRun, c :: rest =>
    if sChar c || c == '_' then
      (if inRun then [] else ['-']) ++ collapse_ws sChar true rest
    else c :: collapse_ws sChar false rest

/-- Python `str.strip('-')`: drop leading and trailing hyphens. -/
def strip_hyphens (l : List Char) : List Char :=
  ((l.dropWhile (fun c => c == '-')).reverse.dropWhile (fun c => c == '-')).reverse

/-- `MarkdownProcessor._generate_slug`: `{date:%Y-%m-%d}-{sanitized title}`.
`lower` models `str.lower` (Python lowercases before the substitutions). -/
def generate_slug (wChar sChar cjkChar : Char → Bool) (lower : Char → Char)
    (title : String) (date : DateTime) : String :=
  let date_str := dateStr date
  let t1 := (title.data.map lower).filter (keep_char wChar sChar cjkChar)
  let t2 := collapse_ws sChar false t1
  let title_slug := strip_hyphens t2
  String.mk (date_str ++ '-' :: title_slug)

/-- The title/date/slug logic of `MarkdownProcessor.parse_post` (lines
109-133): error when `title` is absent; date from `_parse_date` when the
`date` field is present (its error propagating), else the file modification
time `mtime`; then the slug from `_generate_slug`. -/
def parse_post (strptime : String → String → Option DateTime)
    (wChar sChar cjkChar : Char → Bool) (lower : Char → Char)
    (fm : Frontmatter) (mtime : DateTime) :
    Except String (String × DateTime × String) :=
  match fm.title with
  | none => .error "文章缺少必需的 frontmatter 字段: title"
  | some title =>
    match fm.date with
    | some dv =>
      match parse_date strptime dv with
      | .error e => .error e
      | .ok date =>
        .ok (title, date, generate_slug wChar sChar cjkChar lower title date)
    | none =>
      .ok (title, mtime, generate_slug wChar sChar cjkChar lower title mtime)

/-- A concrete encrypted post used by witnesses and counterexamples. -/
def secretPost : Post :=
  { filepath := "md/secret.md"
    slug := "2024-01-01-secret"
    relative_path := "secret"
    title := "secret"
    date := { year := 2024, month := 1, day := 1 }
    author := ""
    description := ""
    tags := []
    content := "secret body"
    html := "<p>secret</p>"
    encrypted := true
    password := "pw" }

/-- Normalize `.` and `..` segments of an absolute path given as a segment
list, modelling `pathlib.Path.resolve()` without symlinks. -/
def resolveSegs (segs : List String) : List String :=
  segs.foldl
    (fun acc seg =>
      if seg = "" ∨ seg = "." then acc
      else if seg = ".." then acc.dropLast
      else acc ++ [seg])
    []

/-- `PurePath.relative_to(root)` on segment lists: strip the root's segments,
`none` when the path does not lie under the root (Python raises
`ValueError`). -/
def relativeSegs : List String → List String → Option (List String)
  | [], segs => some segs
  | _ :: _, [] => none
  | r :: rest, s :: segs => if r = s then relativeSegs rest segs else none

/-- The source text of one matched image reference, `match.group(0)`. -/
def imageRef (alt target : String) : String :=
  "![" ++ alt ++ "](" ++ target ++ ")"

/-- Python `target.startswith(pre)` (character-level prefix test). -/
def strStartsWith (s pre : String) : Bool := pre.data.isPrefixOf s.data

/-- Split a character list on a separator (Python `str.split(sep)` semantics:
`n` separators yield `n + 1` groups). -/
def splitCharsOn (sep : Char) : List Char → List (List Char)
  | [] => [[]]
  | c :: rest =>
    match splitCharsOn sep rest with
    | [] => [[]]
    | g :: gs => if c = sep then [] :: g :: gs else (c :: g) :: gs

/-- Path-string to segment list (splitting on `/`). -/
def splitSegs (s : String) : List String := (splitCharsOn '/' s.data).map String.mk

/-- Segment list to path string (what `str(PurePath)` produces for a relative
path, and what the f-string `/assets/images/{rel}` embeds). -/
def joinSegs : List String → String
  | [] => ""
  | [s] => s
  | s :: rest => s ++ "/" ++ joinSegs rest

/-- The `replace_image` closure inside
`MarkdownProcessor._process_markdown_with_images`, applied to one matched
reference: the replacement text and the recorded absolute image path (if
any).  `is_file` models `Path.exists() and Path.is_file()`; `md_root` is the
resolved content root `self.md_dir` and `md_parent` the source file's
directory `md_filepath.parent`, both as resolved absolute segment lists. -/
def replace_image (is_file : List String → Bool)
    (md_root md_parent : List String) (alt target : String) :
    String × Option (List String) :=
  if strStartsWith target "http://" || strStartsWith target "https://" ||
      strStartsWith target "//" then
    (imageRef alt target, none)
  else if strStartsWith target "/" then
    (imageRef alt target, none)
  else
    let img_abs_path := resolveSegs (md_parent ++ splitSegs target)
    if is_file img_abs_path then
      match relativeSegs md_root img_abs_path with
      | some rel_to_md =>
        ("![" ++ alt ++ "](/assets/images/" ++ joinSegs rel_to_md ++ ")",
         some img_abs_path)
      | none => (imageRef alt target, none)
    else (imageRef alt target, none)

/-- Scan to the first occurrence of `stop`: the characters before it and the
characters after it, `none` when absent (the `[^\]]*` and `[^)]+` pieces of
the image regex can never cross their stop character). -/
def spanTo (stop : Char) : List Char → Option (List Char × List Char)
  | [] => none
  | c :: rest =>
    if c = stop then some ([], rest)
    else
      match spanTo stop rest with
      | some (a, b) => some (c :: a, b)
      | none => none

/-- Match the image regex `!\[([^\]]*)\]\(([^)]+)\)` at the head of the text;
on success returns `(alt, target, rest of the text after the match)`. -/
def tryMatchImage : List Char → Option (String × String × List Char)
  | '!' :: '[' :: rest =>
    (match spanTo ']' rest with
     | some (alt, rest1) =>
       (match rest1 with
        | '(' :: rest2 =>
          (match spanTo ')' rest2 with
           | some (target, rest3) =>
             if target = [] then none
             else some (String.mk alt, String.mk target, rest3)
           | none => none)
        | _ => none)
     | none => none)
  | _ => none

/-- One `re.sub` pass over the text, replacing every non-overlapping image
reference left to right and collecting the recorded image paths in match
order.  Structural recursion on a fuel counter initialized to the text
length (a match always consumes at least one character). -/
def sub_images_aux (repl : String → String → String × Option (List String)) :
    Nat → List Char → List Char × List (List String)
  | 0, l => (l, [])
  | _ + 1, [] => ([], [])
  | fuel + 1, c :: rest =>
    match tryMatchImage (c :: rest) with
    | some (alt, target, rest2) =>
      let out := repl alt target
      let tailOut := sub_images_aux repl fuel rest2
      (out.1.data ++ tailOut.1, out.2.toList ++ tailOut.2)
    | none =>
      let tailOut := sub_images_aux repl fuel rest
      (c :: tailOut.1, tailOut.2)

/-- `_process_markdown_with_images` restricted to its observable effect on
the Markdown text and the recorded images list (the final Markdown→HTML
conversion is the external `markdown` library and keeps the rewritten image
targets verbatim). -/
def process_markdown_images (is_file : List String → Bool)
    (md_root md_parent : List String) (text : String) :
    String × List (List String) :=
  let r := sub_images_aux (replace_image is_file md_root md_parent)
    text.data.length text.data
  (String.mk r.1, r.2)

/-- The descending-date order used by
`posts.sort(key=lambda p: p.date, reverse=True)`: `postDateGe a b` holds when
`a` may come before `b` in the sorted output. -/
def postDateGe (a b : Post) : Prop := DateTime.le b.date a.date

instance postDateGe.dec : DecidableRel postDateGe := fun a b =>
  DateTime.decLe b.date a.date

instance postDateGe.total : IsTotal Post postDateGe := by
  constructor
  intro a b
  unfold postDateGe DateTime.le
  omega

instance postDateGe.trans : IsTrans Post postDateGe := by
  constructor
  intro a b c hab hbc
  unfold postDateGe DateTime.le at *
  omega

/-- `MarkdownProcessor.load_posts`: when the content directory exists, parse
every discovered file, skip each file whose parse raises, then sort by
descending date.  Python `list.sort` is stable and `reverse=True` keeps
equal keys in discovery order, which is exactly Mathlib's `insertionSort`
with the reflexive descending relation `postDateGe` (the earlier element is
inserted last and placed before equal-dated later elements).  `parse` is
`parse_post` applied to the file, `dir_exists` is `self.md_dir.exists()`,
`files` lists the `rglob('*.md')` hits in discovery order. -/
def load_posts (dir_exists : Bool) (parse : String → Except String Post)
    (files : List String) : List Post :=
  if dir_exists then
    List.insertionSort postDateGe (files.filterMap fun f => (parse f).toOption)
  else []

/-- `StaticGenerator._write_file`: wrap a raw filesystem write outcome into a
`GenerationError`. -/
def write_file (path : String) (write : String → Except String Unit) :
    Except String Unit :=
  match write path with
  | .ok _ => .ok ()
  | .error e => .error ("写入文件失败 " ++ path ++ ": " ++ e)

/-- `StaticGenerator._generate_rss`: the entire body, including the
`_write_file` call, runs inside `try/except Exception`; any exception is
printed as "跳过 RSS 生成" and swallowed.  Returns whether rss.xml was
written. -/
def generate_rss (write : String → Except String Unit) : Bool :=
  match write_file "rss.xml" write with
  | .ok _ => true
  | .error _ => false

/-- `StaticGenerator._generate_sitemap`: same try/except-all structure as
`_generate_rss` ("跳过 Sitemap 生成"). -/
def generate_sitemap (write : String → Except String Unit) : Bool :=
  match write_file "sitemap.xml" write with
  | .ok _ => true
  | .error _ => false

/-- `StaticGenerator._generate_search_index`: same try/except-all structure
("跳过搜索索引生成"). -/
def generate_search_index (write : String → Except String Unit) : Bool :=
  match write_file "search-index.json" write with
  | .ok _ => true
  | .error _ => false

/-- `StaticGenerator._generate_archive_page`: `try/except` around render and
write ("跳过归档页"). -/
def generate_archive (write : String → Except String Unit) : Bool :=
  match write_file "archive.html" write with
  | .ok _ => true
  | .error _ => false

/-- `StaticGenerator._generate_pages`, writing one representative file per
step: the index, post and tag-page writes have no surrounding `try/except`,
so their `GenerationError` propagates and aborts the remaining steps; the
archive, RSS, sitemap and search-index steps swallow any exception and are
merely skipped.  Returns the log of completed steps. -/
def generate_pages (write : String → Except String Unit)
    (gen_rss gen_sitemap : Bool) : Except String (List String) :=
  match write_file "index.html" write with
  | .error e => .error e
  | .ok _ =>
    match write_file "posts/welcome.html" write with
    | .error e => .error e
    | .ok _ =>
      match write_file "tags/python.html" write with
      | .error e => .error e
      | .ok _ =>
        let log := ["index", "posts", "tags"]
        let log := log ++
          [if generate_archive write then "archive" else "archive-skipped"]
        let log := if gen_rss then
            log ++ [if generate_rss write then "rss" else "rss-skipped"]
          else log
        let log := if gen_sitemap then
            log ++
              [if generate_sitemap write then "sitemap" else "sitemap-skipped"]
          else log
        let log := log ++
          [if generate_search_index write then "search-index"
           else "search-index-skipped"]
        .ok log

/-- One step of `Renderer.get_all_tags`: `tags_map[tag].append(post)` with
Python-dict insertion-order semantics on an association list. -/
def add_tag : List (String × List Post) → String → Post →
    List (String × List Post)
  | [], tag, post => [(tag, [post])]
  | (t, ps) :: rest, tag, post =>
    if t = tag then (t, ps ++ [post]) :: rest
    else (t, ps) :: add_tag rest tag post

/-- `Renderer.get_all_tags`: fold every tag of every post into the map. -/
def get_all_tags (posts : List Post) : List (String × List Post) :=
  posts.foldl
    (fun m post => post.tags.foldl (fun m tag => add_tag m tag post) m) []

/-- `sorted(tags_data.items())` in `Renderer.render_tags_index`: sort the tag
map by tag name (keys are unique, so Python's tuple comparison never reaches
the post lists). -/
def sortTagsByName (m : List (String × List Post)) :
    List (String × List Post) :=
  List.insertionSort (fun a b => a.1 ≤ b.1) m

/-- The `tags_stats` list of `Renderer.render_tags_index`: (name, count,
posts) in sorted-by-name order. -/
def tags_stats (tags_data : List (String × List Post)) :
    List (String × Nat × List Post) :=
  (sortTagsByName tags_data).map fun tp => (tp.1, tp.2.length, tp.2)

/-- A concrete post tagged `["a", "b"]`. -/
def postAB : Post :=
  { filepath := "md/ab.md"
    slug := "2024-01-02-ab"
    relative_path := "ab"
    title := "ab"
    date := { year := 2024, month := 1, day := 2 }
    author := ""
    description := ""
    tags := ["a", "b"]
    content := ""
    html := "" }

/-- A concrete post tagged `["b"]`. -/
def postB : Post :=
  { filepath := "md/b.md"
    slug := "2024-01-03-b"
    relative_path := "b"
    title := "b"
    date := { year := 2024, month := 1, day := 3 }
    author := ""
    description := ""
    tags := ["b"]
    content := ""
    html := "" }

end Mblog

namespace Mblog

theorem b64Val_b64Char : ∀ n, n < 64 → b64Val (b64Char n) = n := by decide

theorem b64Char_ne_pad : ∀ n, n < 64 → b64Char n ≠ '=' := by decide

theorem b64Char_ne_colon (n : Nat) : b64Char n ≠ ':' := by
  by_cases h : n < 64
  · exact (by decide : ∀ m, m < 64 → b64Char m ≠ ':') n h
  · unfold b64Char
    rw [List.getD_eq_default]
    · decide
    · simp only [b64Table, List.length]
      omega

theorem b64DecodeQuad_pad2 (c1 c2 : Char) :
    b64DecodeQuad c1 c2 '=' '=' = [b64Val c1 * 4 + b64Val c2 / 16] := by
  simp [b64DecodeQuad]

theorem b64DecodeQuad_pad1 (c1 c2 c3 : Char) (h : c3 ≠ '=') :
    b64DecodeQuad c1 c2 c3 '=' =
      [b64Val c1 * 4 + b64Val c2 / 16, b64Val c2 % 16 * 16 + b64Val c3 / 4] := by
  simp [b64DecodeQuad, h]

theorem b64DecodeQuad_full (c1 c2 c3 c4 : Char) (h3 : c3 ≠ '=') (h4 : c4 ≠ '=') :
    b64DecodeQuad c1 c2 c3 c4 =
      [b64Val c1 * 4 + b64Val c2 / 16, b64Val c2 % 16 * 16 + b64Val c3 / 4,
       b64Val c3 % 4 * 64 + b64Val c4] := by
  simp [b64DecodeQuad, h3, h4]

theorem b64_roundtrip :
    ∀ l : List Nat, (∀ b ∈ l, b < 256) → b64Decode (b64Encode l) = l := by
  intro l
  induction l using b64Encode.induct with
  | case1 =>
    intro _
    rfl
  | case2 b1 =>
    intro h
    have hb1 : b1 < 256 := h b1 (by simp)
    show b64Decode [b64Char (b1 / 4), b64Char (b1 % 4 * 16), '=', '='] = [b1]
    simp only [b64Decode, b64DecodeQuad_pad2, List.append_nil]
    rw [b64Val_b64Char _ (by omega), b64Val_b64Char _ (by omega)]
    have e1 : b1 / 4 * 4 + b1 % 4 * 16 / 16 = b1 := by omega
    rw [e1]
  | case3 b1 b2 =>
    intro h
    have hb1 : b1 < 256 := h b1 (by simp)
    have hb2 : b2 < 256 := h b2 (by simp)
    have h3 : b64Char (b2 % 16 * 4) ≠ '=' := b64Char_ne_pad _ (by omega)
    show b64Decode [b64Char (b1 / 4), b64Char (b1 % 4 * 16 + b2 / 16),
        b64Char (b2 % 16 * 4), '='] = [b1, b2]
    simp only [b64Decode, b64DecodeQuad_pad1 _ _ _ h3, List.append_nil]
    rw [b64Val_b64Char _ (by omega), b64Val_b64Char _ (by omega),
        b64Val_b64Char _ (by omega)]
    have e1 : b1 / 4 * 4 + (b1 % 4 * 16 + b2 / 16) / 16 = b1 := by omega
    have e2 : (b1 % 4 * 16 + b2 / 16) % 16 * 16 + b2 % 16 * 4 / 4 = b2 := by omega
    rw [e1, e2]
  | case4 b1 b2 b3 rest ih =>
    intro h
    have hb1 : b1 < 256 := h b1 (by simp)
    have hb2 : b2 < 256 := h b2 (by simp)
    have hb3 : b3 < 256 := h b3 (by simp)
    have h3 : b64Char (b2 % 16 * 4 + b3 / 64) ≠ '=' := b64Char_ne_pad _ (by omega)
    have h4 : b64Char (b3 % 64) ≠ '=' := b64Char_ne_pad _ (by omega)
    show b64Decode (b64Char (b1 / 4) :: b64Char (b1 % 4 * 16 + b2 / 16) ::
        b64Char (b2 % 16 * 4 + b3 / 64) :: b64Char (b3 % 64) :: b64Encode rest) =
        b1 :: b2 :: b3 :: rest
    simp only [b64Decode, b64DecodeQuad_full _ _ _ _ h3 h4]
    rw [b64Val_b64Char _ (by omega), b64Val_b64Char _ (by omega),
        b64Val_b64Char _ (by omega), b64Val_b64Char _ (by omega)]
    rw [ih (fun b hb => h b (by simp [hb]))]
    have e1 : b1 / 4 * 4 + (b1 % 4 * 16 + b2 / 16) / 16 = b1 := by omega
    have e2 : (b1 % 4 * 16 + b2 / 16) % 16 * 16 + (b2 % 16 * 4 + b3 / 64) / 4 = b2 := by
      omega
    have e3 : (b2 % 16 * 4 + b3 / 64) % 4 * 64 + b3 % 64 = b3 := by omega
    rw [e1, e2, e3]
    rfl

theorem b64Encode_ne_colon :
    ∀ l : List Nat, ∀ c ∈ b64Encode l, c ≠ ':' := by
  intro l
  induction l using b64Encode.induct with
  | case1 =>
    intro c hc
    simp [b64Encode] at hc
  | case2 b1 =>
    intro c hc
    simp only [b64Encode, List.mem_cons, List.not_mem_nil, or_false] at hc
    rcases hc with h | h | h | h <;> subst h
    · exact b64Char_ne_colon _
    · exact b64Char_ne_colon _
    · decide
    · decide
  | case3 b1 b2 =>
    intro c hc
    simp only [b64Encode, List.mem_cons, List.not_mem_nil, or_false] at hc
    rcases hc with h | h | h | h <;> subst h
    · exact b64Char_ne_colon _
    · exact b64Char_ne_colon _
    · exact b64Char_ne_colon _
    · decide
  | case4 b1 b2 b3 rest ih =>
    intro c hc
    simp only [b64Encode, List.mem_cons] at hc
    rcases hc with h | h | h | h | h
    · subst h
      exact b64Char_ne_colon _
    · subst h
      exact b64Char_ne_colon _
    · subst h
      exact b64Char_ne_colon _
    · subst h
      exact b64Char_ne_colon _
    · exact ih c h

/-- C1: for every plaintext and password, `_encrypt_content` returns a payload
of exactly three Base64 segments joined by `:` (no segment contains a colon);
the first decodes to the 16-byte salt, the second to the 12-byte nonce, and the
third to the AES-256-GCM ciphertext of the UTF-8 plaintext with the 16-byte
authentication tag appended, under a 32-byte key derived from the password by
PBKDF2-HMAC-SHA256 with 100,000 iterations and that salt.  The hypotheses are
the documented behaviours of the external primitives: `os.urandom(n)` returns
`n` bytes, PBKDF2 returns the requested length, GCM ciphertext has the
plaintext's length and a 16-byte tag. -/
theorem C1_encrypt_content_payload
    (pbkdf2_sha256 : String → List Nat → Nat → Nat → List Nat)
    (aes_gcm_encrypt aes_gcm_tag : List Nat → List Nat → List Nat → List Nat)
    (salt nonce : List Nat) (content password : String)
    (hsalt_len : salt.length = SALT_SIZE)
    (hsalt_bytes : ∀ b ∈ salt, b < 256)
    (hnonce_len : nonce.length = NONCE_SIZE)
    (hnonce_bytes : ∀ b ∈ nonce, b < 256)
    (hct_bytes : ∀ k n p, ∀ b ∈ aes_gcm_encrypt k n p, b < 256)
    (hct_len : ∀ k n p, (aes_gcm_encrypt k n p).length = p.length)
    (htag_bytes : ∀ k n p, ∀ b ∈ aes_gcm_tag k n p, b < 256)
    (htag_len : ∀ k n p, (aes_gcm_tag k n p).length = 16)
    (hkey_len : ∀ pw s it len, (pbkdf2_sha256 pw s it len).length = len) :
    (encrypt_content pbkdf2_sha256 aes_gcm_encrypt aes_gcm_tag
        salt nonce content password).data =
      b64Encode salt ++ ':' :: b64Encode nonce ++ ':' ::
        b64Encode
          (aes_gcm_encrypt (pbkdf2_sha256 password salt 100000 32) nonce
              (utf8Bytes content) ++
            aes_gcm_tag (pbkdf2_sha256 password salt 100000 32) nonce
              (utf8Bytes content)) ∧
    (∀ c ∈ b64Encode salt, c ≠ ':') ∧
    (∀ c ∈ b64Encode nonce, c ≠ ':') ∧
    (∀ c ∈ b64Encode
        (aes_gcm_encrypt (pbkdf2_sha256 password salt 100000 32) nonce
            (utf8Bytes content) ++
          aes_gcm_tag (pbkdf2_sha256 password salt 100000 32) nonce
            (utf8Bytes content)), c ≠ ':') ∧
    b64Decode (b64Encode salt) = salt ∧ salt.length = 16 ∧
    b64Decode (b64Encode nonce) = nonce ∧ nonce.length = 12 ∧
    b64Decode (b64Encode
        (aes_gcm_encrypt (pbkdf2_sha256 password salt 100000 32) nonce
            (utf8Bytes content) ++
          aes_gcm_tag (pbkdf2_sha256 password salt 100000 32) nonce
            (utf8Bytes content))) =
      aes_gcm_encrypt (pbkdf2_sha256 password salt 100000 32) nonce
          (utf8Bytes content) ++
        aes_gcm_tag (pbkdf2_sha256 password salt 100000 32) nonce
          (utf8Bytes content) ∧
    (aes_gcm_encrypt (pbkdf2_sha256 password salt 100000 32) nonce
        (utf8Bytes content)).length = (utf8Bytes content).length ∧
    (aes_gcm_tag (pbkdf2_sha256 password salt 100000 32) nonce
        (utf8Bytes content)).length = 16 ∧
    (derive_key pbkdf2_sha256 password salt).length = 32 ∧
    derive_key pbkdf2_sha256 password salt = pbkdf2_sha256 password salt 100000 32 := by
  have hctTag_bytes : ∀ b ∈
      aes_gcm_encrypt (pbkdf2_sha256 password salt 100000 32) nonce
          (utf8Bytes content) ++
        aes_gcm_tag (pbkdf2_sha256 password salt 100000 32) nonce
          (utf8Bytes content), b < 256 := by
    intro b hb
    rcases List.mem_append.mp hb with h | h
    · exact hct_bytes _ _ _ b h
    · exact htag_bytes _ _ _ b h
  refine ⟨rfl, fun c hc => b64Encode_ne_colon salt c hc,
    fun c hc => b64Encode_ne_colon nonce c hc,
    fun c hc => b64Encode_ne_colon _ c hc,
    b64_roundtrip salt hsalt_bytes, hsalt_len,
    b64_roundtrip nonce hnonce_bytes, hnonce_len,
    b64_roundtrip _ hctTag_bytes,
    hct_len _ _ _, htag_len _ _ _, hkey_len _ _ _ _, rfl⟩

/-- Witness for C1: the payload shape at a concrete backend and concrete
salt/nonce/content/password, with every hypothesis discharged. -/
theorem C1_encrypt_content_payload_witness :
    (encrypt_content (fun _ _ _ len => List.replicate len 0)
        (fun _ _ p => List.replicate p.length 0)
        (fun _ _ _ => List.replicate 16 0)
        (List.replicate 16 0) (List.replicate 12 0) "hello" "pw").data =
      b64Encode (List.replicate 16 0) ++ ':' :: b64Encode (List.replicate 12 0) ++ ':' ::
        b64Encode
          ((fun _ _ p => List.replicate p.length (0 : Nat))
              ((fun _ _ _ len => List.replicate len (0 : Nat)) "pw"
                (List.replicate 16 0) 100000 32) (List.replicate 12 0)
              (utf8Bytes "hello") ++
            (fun _ _ _ => List.replicate 16 (0 : Nat))
              ((fun _ _ _ len => List.replicate len (0 : Nat)) "pw"
                (List.replicate 16 0) 100000 32) (List.replicate 12 0)
              (utf8Bytes "hello")) :=
  (C1_encrypt_content_payload (fun _ _ _ len => List.replicate len 0)
    (fun _ _ p => List.replicate p.length 0) (fun _ _ _ => List.replicate 16 0)
    (List.replicate 16 0) (List.replicate 12 0) "hello" "pw"
    (by simp [SALT_SIZE]) (by simp +contextual [List.mem_replicate])
    (by simp [NONCE_SIZE]) (by simp +contextual [List.mem_replicate])
    (by simp +contextual [List.mem_replicate]) (by simp)
    (by simp +contextual [List.mem_replicate]) (by simp)
    (by simp)).1

/-- C2: with `posts_per_page = 3` and 7 posts, `total_pages = 3`; page `p`
receives the slice `posts[(p-1)*3 : p*3]` (page 1 = posts[0:3], page 2 =
posts[3:6], page 3 = posts[6:7]); `has_prev` is false exactly on page 1 and
`has_next` false exactly on page 3; `prev_url` for page 2 is the root index
and for page 3 is `page/2.html`; `next_url` is present only while
`page < total_pages`; page 1 is written to `index.html` and pages ≥ 2 to
`page/{p}.html`. -/
theorem C2_pagination_seven_three {α : Type} (posts : List α)
    (h7 : posts.length = 7) :
    (render_index_paginate posts 1 3 "").1 = (posts.drop 0).take 3 ∧
    (render_index_paginate posts 2 3 "").1 = (posts.drop 3).take 3 ∧
    (render_index_paginate posts 3 3 "").1 = (posts.drop 6).take 1 ∧
    (∀ page, 1 ≤ page → page ≤ 3 →
      (render_index_paginate posts page 3 "").2.total_pages = 3 ∧
      ((render_index_paginate posts page 3 "").2.has_prev = false ↔ page = 1) ∧
      ((render_index_paginate posts page 3 "").2.has_next = false ↔ page = 3) ∧
      (render_index_paginate posts page 3 "").2.next_url =
        (if page < 3 then some ("/page/" ++ toString (page + 1) ++ ".html")
         else none)) ∧
    (render_index_paginate posts 1 3 "").2.prev_url = none ∧
    (render_index_paginate posts 2 3 "").2.prev_url = some "/" ∧
    (render_index_paginate posts 3 3 "").2.prev_url = some "/page/2.html" ∧
    generate_index_pages_paths (some 3) 7 =
      ["index.html", "page/2.html", "page/3.html"] := by
  have hdl : (posts.drop 6).length = 1 := by
    rw [List.length_drop, h7]
  refine ⟨rfl, rfl, ?_, ?_, ?_, ?_, ?_, ?_⟩
  · show (posts.drop ((3 - 1) * 3)).take 3 = (posts.drop 6).take 1
    have h1 : (posts.drop 6).take 3 = posts.drop 6 :=
      List.take_of_length_le (by omega)
    have h2 : (posts.drop 6).take 1 = posts.drop 6 :=
      List.take_of_length_le (by omega)
    rw [show (3 - 1) * 3 = 6 from rfl, h1, h2]
  · intro page hp1 hp3
    interval_cases page <;>
      refine ⟨?_, ?_, ?_, ?_⟩ <;>
        simp [render_index_paginate, h7]
  · rfl
  · rfl
  · rfl
  · rfl

/-- Witness for C2 at the concrete post list `[0, 1, 2, 3, 4, 5, 6]`. -/
theorem C2_pagination_seven_three_witness :
    (render_index_paginate [0, 1, 2, 3, 4, 5, 6] 3 3 "").1 =
      (([0, 1, 2, 3, 4, 5, 6] : List Nat).drop 6).take 1 :=
  (C2_pagination_seven_three [0, 1, 2, 3, 4, 5, 6] rfl).2.2.1

/-- C10: with a configured `posts_per_page > 0` and an empty post list,
`total_pages = 0`, the page loop runs zero times and no `index.html` is
written; the unpaginated branch (`posts_per_page` absent or ≤ 0) always
writes exactly one `index.html`, also for zero posts. -/
theorem C10_empty_paginated_no_index (pp : Int) (hpp : 0 < pp) :
    (0 + pp.toNat - 1) / pp.toNat = 0 ∧
    generate_index_pages_paths (some pp) 0 = [] ∧
    generate_index_pages_paths none 0 = ["index.html"] ∧
    (∀ q : Int, q ≤ 0 → generate_index_pages_paths (some q) 0 = ["index.html"]) := by
  have hz : (0 + pp.toNat - 1) / pp.toNat = 0 :=
    Nat.div_eq_of_lt (by omega)
  refine ⟨hz, ?_, rfl, ?_⟩
  · show generate_index_pages_paths (some pp) 0 = []
    simp only [generate_index_pages_paths]
    rw [if_neg (by omega), hz]
    rfl
  · intro q hq
    simp only [generate_index_pages_paths]
    rw [if_pos hq]

/-- Witness for C10 at `posts_per_page = 3`. -/
theorem C10_empty_paginated_no_index_witness :
    generate_index_pages_paths (some 3) 0 = [] :=
  (C10_empty_paginated_no_index 3 (by decide)).2.1

/-- Counterexample to C3: for an encrypted post with a password, when the
theme has an `encrypted_post` template and `template.render` raises, the call
exits with a `RendererError` but leaves `post.html` set to the encrypted
payload — it is NOT restored to its original value on that exit path. -/
theorem C3_render_post_counterexample :
    (render_post (fun _ => true) (fun _ => .ok ())
        (fun _ _ => .error "boom") (fun h _ => "ENC:" ++ h) secretPost).1 =
      .error "渲染加密文章失败: boom" ∧
    (render_post (fun _ => true) (fun _ => .ok ())
        (fun _ _ => .error "boom") (fun h _ => "ENC:" ++ h) secretPost).2.html =
      "ENC:<p>secret</p>" ∧
    secretPost.html = "<p>secret</p>" ∧
    ("ENC:<p>secret</p>" : String) ≠ "<p>secret</p>" := by
  refine ⟨rfl, rfl, rfl, by decide⟩

/-- C3 as amended: `render_post` restores `post.html` whenever it returns
normally; on the raising paths the caller sees either the untouched post
(when encryption or template loading failed before the substitution) or the
post with its body still replaced by the encrypted payload / the
theme-lacks-encryption notice (when `template.render` raised after the
substitution). -/
theorem C3_render_post_restore (has_template : String → Bool)
    (get_template : String → Except String Unit)
    (render : String → Post → Except String String)
    (encrypt : String → String → String) (post : Post) :
    (∀ html,
      (render_post has_template get_template render encrypt post).1 = .ok html →
      (render_post has_template get_template render encrypt post).2 = post) ∧
    ((render_post has_template get_template render encrypt post).2 = post ∨
      (render_post has_template get_template render encrypt post).2 =
        { post with html := encrypt post.html post.password } ∨
      (render_post has_template get_template render encrypt post).2 =
        { post with html := encryptedNotice }) := by
  unfold render_post
  by_cases hc : post.encrypted = true ∧ post.password ≠ ""
  · rw [if_pos hc]
    cases htv : has_template "encrypted_post" with
    | true =>
      simp only [if_pos rfl]
      cases hg : get_template "encrypted_post" with
      | error e => exact ⟨fun html h => by simp at h, Or.inl rfl⟩
      | ok u =>
        cases hr : render "encrypted_post" { post with html := encrypt post.html post.password } with
        | ok html => exact ⟨fun h hh => rfl, Or.inl rfl⟩
        | error e => exact ⟨fun html h => by simp at h, Or.inr (Or.inl rfl)⟩
    | false =>
      simp only [Bool.false_eq_true, if_false]
      cases hg : get_template "post" with
      | error e => exact ⟨fun html h => by simp at h, Or.inl rfl⟩
      | ok u =>
        cases hr : render "post" { post with html := encryptedNotice } with
        | ok html => exact ⟨fun h hh => rfl, Or.inl rfl⟩
        | error e => exact ⟨fun html h => by simp at h, Or.inr (Or.inr rfl)⟩
  · rw [if_neg hc]
    cases hg : get_template "post" with
    | error e => exact ⟨fun html h => by simp at h, Or.inl rfl⟩
    | ok u =>
      cases hr : render "post" post with
      | ok html => exact ⟨fun h hh => rfl, Or.inl rfl⟩
      | error e => exact ⟨fun html h => by simp at h, Or.inl rfl⟩

theorem tryFormats_eq_none_iff (strptime : String → String → Option DateTime)
    (s : String) :
    ∀ fs, tryFormats strptime s fs = none ↔ ∀ f ∈ fs, strptime s f = none := by
  intro fs
  induction fs with
  | nil => simp [tryFormats]
  | cons f fs ih =>
    simp only [tryFormats]
    cases h : strptime s f with
    | none => simp [h, ih]
    | some d => simp [h]

theorem tryFormats_append_first (strptime : String → String → Option DateTime)
    (s : String) (d : DateTime) :
    ∀ fs1 f fs2, (∀ g ∈ fs1, strptime s g = none) → strptime s f = some d →
      tryFormats strptime s (fs1 ++ f :: fs2) = some d := by
  intro fs1
  induction fs1 with
  | nil =>
    intro f fs2 _ hsome
    simp [tryFormats, hsome]
  | cons g gs ih =>
    intro f fs2 hnone hsome
    have hg : strptime s g = none := hnone g (by simp)
    simp only [List.cons_append, tryFormats, hg]
    exact ih f fs2 (fun x hx => hnone x (by simp [hx])) hsome

/-- Witness for amended C3: a successful encrypted render restores the post,
at a concrete theme, renderer and post. -/
theorem C3_render_post_restore_witness :
    (render_post (fun _ => true) (fun _ => .ok ())
        (fun _ p => .ok ("<html>" ++ p.html ++ "</html>"))
        (fun h _ => "ENC:" ++ h) secretPost).2 = secretPost :=
  (C3_render_post_restore (fun _ => true) (fun _ => .ok ())
      (fun _ p => .ok ("<html>" ++ p.html ++ "</html>"))
      (fun h _ => "ENC:" ++ h) secretPost).1
    "<html>ENC:<p>secret</p></html>" rfl

/-- C4: date resolution precedence of `parse_post` / `_parse_date`: a
`datetime` value is accepted directly, a `date` value becomes midnight of
that day; a string is matched against the five formats in order with the
first match winning; the file modification time is used only when the `date`
field is entirely absent (and the result is otherwise independent of it);
parsing errors exactly when `title` is missing, a date string matches no
format, or the date value has an unsupported type. -/
theorem C4_parse_date_precedence
    (strptime : String → String → Option DateTime)
    (wChar sChar cjkChar : Char → Bool) (lower : Char → Char)
    (fm : Frontmatter) (mtime : DateTime) :
    (∀ v, parse_date strptime (.dt v) = .ok v) ∧
    (∀ y m dd, parse_date strptime (.d y m dd) =
      .ok { year := y, month := m, day := dd }) ∧
    (∀ s d fs1 f fs2, date_formats = fs1 ++ f :: fs2 →
      (∀ g ∈ fs1, strptime s g = none) → strptime s f = some d →
      parse_date strptime (.s s) = .ok d) ∧
    (∀ s, (∀ f ∈ date_formats, strptime s f = none) →
      parse_date strptime (.s s) = .error ("无法解析日期格式: " ++ s)) ∧
    (∀ t, fm.title = some t → fm.date = none →
      parse_post strptime wChar sChar cjkChar lower fm mtime =
        .ok (t, mtime, generate_slug wChar sChar cjkChar lower t mtime)) ∧
    (∀ dv mtime2, fm.date = some dv →
      parse_post strptime wChar sChar cjkChar lower fm mtime =
        parse_post strptime wChar sChar cjkChar lower fm mtime2) ∧
    ((∃ e, parse_post strptime wChar sChar cjkChar lower fm mtime = .error e) ↔
      (fm.title = none ∨
        (∃ s, fm.date = some (.s s) ∧ ∀ f ∈ date_formats, strptime s f = none) ∨
        (∃ t, fm.date = some (.other t)))) := by
  refine ⟨fun v => rfl, fun y m dd => rfl, ?_, ?_, ?_, ?_, ?_⟩
  · intro s d fs1 f fs2 heq hnone hsome
    simp only [parse_date]
    rw [heq, tryFormats_append_first strptime s d fs1 f fs2 hnone hsome]
  · intro s hall
    simp only [parse_date]
    rw [(tryFormats_eq_none_iff strptime s date_formats).mpr hall]
  · intro t ht hd
    simp [parse_post, ht, hd]
  · intro dv mtime2 hd
    simp only [parse_post, hd]
  · cases ht : fm.title with
    | none =>
      simp [parse_post, ht]
    | some t =>
      cases hd : fm.date with
      | none => simp [parse_post, ht, hd]
      | some dv =>
        cases dv with
        | dt v => simp [parse_post, parse_date, ht, hd]
        | d y m dd => simp [parse_post, parse_date, ht, hd]
        | s str =>
          cases htf : tryFormats strptime str date_formats with
          | none =>
            simp only [parse_post, parse_date, ht, hd, htf]
            constructor
            · intro _
              refine Or.inr (Or.inl ⟨str, rfl, ?_⟩)
              exact (tryFormats_eq_none_iff strptime str date_formats).mp htf
            · intro _
              exact ⟨_, rfl⟩
          | some d =>
            simp only [parse_post, parse_date, ht, hd, htf]
            constructor
            · intro ⟨e, he⟩
              exact absurd he (by simp)
            · rintro (h | ⟨s2, hs2, hall⟩ | ⟨ty, hty⟩)
              · exact absurd h (by simp)
              · obtain rfl : str = s2 := by
                  cases hs2
                  rfl
                rw [(tryFormats_eq_none_iff strptime str date_formats).mpr hall]
                  at htf
                cases htf
              · cases hty
        | other ty => simp [parse_post, parse_date, ht, hd]

/-- Witness for C4: the second format `%Y/%m/%d` wins for `"2024/03/05"`
after the first format fails, at a concrete `strptime`. -/
theorem C4_parse_date_precedence_witness :
    parse_date
        (fun s f => if s == "2024/03/05" && f == "%Y/%m/%d" then
            some { year := 2024, month := 3, day := 5 } else none)
        (.s "2024/03/05") =
      .ok { year := 2024, month := 3, day := 5 } :=
  (C4_parse_date_precedence
      (fun s f => if s == "2024/03/05" && f == "%Y/%m/%d" then
          some { year := 2024, month := 3, day := 5 } else none)
      (fun _ => true) (fun _ => false) (fun _ => false) (fun c => c)
      { title := some "t", date := none } { year := 2024, month := 1, day := 1 }
    ).2.2.1 "2024/03/05" { year := 2024, month := 3, day := 5 }
    ["%Y-%m-%d"] "%Y/%m/%d"
    ["%Y-%m-%d %H:%M:%S", "%Y/%m/%d %H:%M:%S", "%Y-%m-%dT%H:%M:%S"]
    rfl (by decide) (by decide)

theorem digitChar_isDigit : ∀ k, (digitChar k).isDigit = true := by
  intro k
  match k with
  | 0 | 1 | 2 | 3 | 4 | 5 | 6 | 7 | 8 => decide
  | n + 9 =>
    show ('9').isDigit = true
    decide

theorem natDigits_isDigit : ∀ n, ∀ c ∈ natDigits n, c.isDigit = true := by
  intro n
  induction n using natDigits.induct with
  | case1 n h =>
    intro c hc
    rw [natDigits, if_pos h] at hc
    simp only [List.mem_singleton] at hc
    subst hc
    exact digitChar_isDigit n
  | case2 n h ih =>
    intro c hc
    rw [natDigits, if_neg h] at hc
    rcases List.mem_append.mp hc with h1 | h1
    · exact ih c h1
    · simp only [List.mem_singleton] at h1
      subst h1
      exact digitChar_isDigit _

theorem pad2_isDigit (n : Nat) : ∀ c ∈ pad2 n, c.isDigit = true := by
  intro c hc
  unfold pad2 at hc
  by_cases h : n < 10
  · rw [if_pos h] at hc
    rcases List.mem_cons.mp hc with h1 | h1
    · subst h1
      decide
    · exact natDigits_isDigit n c h1
  · rw [if_neg h] at hc
    exact natDigits_isDigit n c hc

theorem dateStr_chars (d : DateTime) :
    ∀ c ∈ dateStr d, c.isDigit = true ∨ c = '-' := by
  intro c hc
  unfold dateStr at hc
  rcases List.mem_append.mp hc with h1 | h1
  · exact Or.inl (natDigits_isDigit _ c h1)
  · rcases List.mem_cons.mp h1 with h2 | h2
    · exact Or.inr h2
    · rcases List.mem_append.mp h2 with h3 | h3
      · exact Or.inl (pad2_isDigit _ c h3)
      · rcases List.mem_cons.mp h3 with h4 | h4
        · exact Or.inr h4
        · exact Or.inl (pad2_isDigit _ c h4)

theorem collapse_ws_chars (sChar : Char → Bool) :
    ∀ (b : Bool) (l : List Char) (c : Char), c ∈ collapse_ws sChar b l →
      c = '-' ∨ (c ∈ l ∧ sChar c = false ∧ c ≠ '_') := by
  intro b l
  induction l generalizing b with
  | nil =>
    intro c hc
    simp [collapse_ws] at hc
  | cons c0 rest ih =>
    intro c hc
    unfold collapse_ws at hc
    by_cases hrun : sChar c0 || c0 == '_'
    · rw [if_pos hrun] at hc
      rcases List.mem_append.mp hc with h1 | h1
      · cases b with
        | true => simp at h1
        | false =>
          simp only [if_neg Bool.false_ne_true, List.mem_singleton] at h1
          exact Or.inl h1
      · rcases ih true c h1 with h | ⟨hm, hs, hu⟩
        · exact Or.inl h
        · exact Or.inr ⟨List.mem_cons_of_mem c0 hm, hs, hu⟩
    · rw [if_neg hrun] at hc
      simp only [Bool.or_eq_true, beq_iff_eq, not_or] at hrun
      rcases List.mem_cons.mp hc with h1 | h1
      · subst h1
        refine Or.inr ⟨List.mem_cons_self _ _, ?_, hrun.2⟩
        cases h : sChar c
        · rfl
        · exact absurd h hrun.1
      · rcases ih false c h1 with h | ⟨hm, hs, hu⟩
        · exact Or.inl h
        · exact Or.inr ⟨List.mem_cons_of_mem c0 hm, hs, hu⟩

theorem strip_hyphens_subset (l : List Char) :
    ∀ c ∈ strip_hyphens l, c ∈ l := by
  intro c hc
  unfold strip_hyphens at hc
  have h1 := List.mem_reverse.mp hc
  have h2 := (List.dropWhile_sublist (fun c => c == '-')).mem h1
  have h3 := List.mem_reverse.mp h2
  exact (List.dropWhile_sublist (fun c => c == '-')).mem h3

theorem generate_slug_chars (wChar sChar cjkChar : Char → Bool)
    (lower : Char → Char) (title : String) (date : DateTime)
    (hdig : ∀ c : Char, c.isDigit = true →
      wChar c = true ∧ sChar c = false ∧ c ≠ '_')
    (hcjk : ∀ c, cjkChar c = true → wChar c = true) :
    ∀ c ∈ (generate_slug wChar sChar cjkChar lower title date).data,
      (wChar c = true ∧ sChar c = false ∧ c ≠ '_') ∨ c = '-' := by
  intro c hc
  unfold generate_slug at hc
  simp only [] at hc
  rcases List.mem_append.mp hc with h1 | h1
  · rcases dateStr_chars date c h1 with h | h
    · exact Or.inl (hdig c h)
    · exact Or.inr h
  · rcases List.mem_cons.mp h1 with h2 | h2
    · exact Or.inr h2
    · have h3 := strip_hyphens_subset _ c h2
      rcases collapse_ws_chars sChar false _ c h3 with h | ⟨hm, hs, hu⟩
      · exact Or.inr h
      · have hk := (List.mem_filter.mp hm).2
        unfold keep_char at hk
        simp only [Bool.or_eq_true, beq_iff_eq] at hk
        rcases hk with ((hw | hsp) | hcj) | hdash
        · exact Or.inl ⟨hw, hs, hu⟩
        · rw [hsp] at hs
          cases hs
        · exact Or.inl ⟨hcjk c hcj, hs, hu⟩
        · exact Or.inr hdash

/-- C8: for every document with a (string) `title` field and a `date` that is
absent or accepted, parsing succeeds; the slug is the `YYYY-MM-DD` date
prefix, a hyphen, and the sanitized lowercased title; and every slug
character is a word character that is neither whitespace nor an underscore
(letters of any script or digits, per the `\w`/`\s` classifiers), or a
hyphen. -/
theorem C8_slug_charset (strptime : String → String → Option DateTime)
    (wChar sChar cjkChar : Char → Bool) (lower : Char → Char)
    (fm : Frontmatter) (mtime : DateTime) (t : String)
    (htitle : fm.title = some t)
    (hdate : fm.date = none ∨
      ∃ dv d, fm.date = some dv ∧ parse_date strptime dv = .ok d)
    (hdig : ∀ c : Char, c.isDigit = true →
      wChar c = true ∧ sChar c = false ∧ c ≠ '_')
    (hcjk : ∀ c, cjkChar c = true → wChar c = true) :
    ∃ date, parse_post strptime wChar sChar cjkChar lower fm mtime =
        .ok (t, date, generate_slug wChar sChar cjkChar lower t date) ∧
      (generate_slug wChar sChar cjkChar lower t date).data =
        dateStr date ++ '-' ::
          strip_hyphens (collapse_ws sChar false
            ((t.data.map lower).filter (keep_char wChar sChar cjkChar))) ∧
      ∀ c ∈ (generate_slug wChar sChar cjkChar lower t date).data,
        (wChar c = true ∧ sChar c = false ∧ c ≠ '_') ∨ c = '-' := by
  rcases hdate with hd | ⟨dv, d, hd, hok⟩
  · refine ⟨mtime, ?_, rfl, generate_slug_chars _ _ _ _ _ _ hdig hcjk⟩
    simp [parse_post, htitle, hd]
  · refine ⟨d, ?_, rfl, generate_slug_chars _ _ _ _ _ _ hdig hcjk⟩
    simp [parse_post, htitle, hd, hok]

/-- Witness for C8 at the title `"My Post_1"` with an absent date and
ASCII-level classifiers. -/
theorem C8_slug_charset_witness :
    ∃ date, parse_post (fun _ _ => none) Char.isAlphanum (fun c => c == ' ')
          (fun _ => false) Char.toLower
          { title := some "My Post_1", date := none }
          { year := 2024, month := 3, day := 5 } =
        .ok ("My Post_1", date,
          generate_slug Char.isAlphanum (fun c => c == ' ') (fun _ => false)
            Char.toLower "My Post_1" date) ∧
      (generate_slug Char.isAlphanum (fun c => c == ' ') (fun _ => false)
          Char.toLower "My Post_1" date).data =
        dateStr date ++ '-' ::
          strip_hyphens (collapse_ws (fun c => c == ' ') false
            ((("My Post_1" : String).data.map Char.toLower).filter
              (keep_char Char.isAlphanum (fun c => c == ' ') (fun _ => false)))) ∧
      ∀ c ∈ (generate_slug Char.isAlphanum (fun c => c == ' ') (fun _ => false)
          Char.toLower "My Post_1" date).data,
        (Char.isAlphanum c = true ∧ (c == ' ') = false ∧ c ≠ '_') ∨ c = '-' :=
  C8_slug_charset (fun _ _ => none) Char.isAlphanum (fun c => c == ' ')
    (fun _ => false) Char.toLower
    { title := some "My Post_1", date := none }
    { year := 2024, month := 3, day := 5 } "My Post_1" rfl (Or.inl rfl)
    (by
      intro c h
      refine ⟨by simp [Char.isAlphanum, h], ?_, ?_⟩
      · have hne : c ≠ ' ' := by
          intro he
          subst he
          simp [Char.isDigit] at h
        simp [hne]
      · intro he
        subst he
        simp [Char.isDigit] at h)
    (fun c h => by cases h)

theorem DateTime.le_refl (a : DateTime) : DateTime.le a a := by
  unfold DateTime.le
  omega

theorem filter_orderedInsert_eq (a : Post) (d : DateTime) (h : a.date = d) :
    ∀ l, (List.orderedInsert postDateGe a l).filter (fun p => p.date == d) =
      a :: l.filter (fun p => p.date == d) := by
  intro l
  induction l with
  | nil => simp [List.orderedInsert, h]
  | cons b l ih =>
    rw [List.orderedInsert]
    by_cases hr : postDateGe a b
    · rw [if_pos hr]
      simp [h]
    · rw [if_neg hr]
      have hb : ¬ b.date = d := by
        intro hbd
        exact hr (by
          unfold postDateGe
          rw [hbd, ← h]
          exact DateTime.le_refl a.date)
      rw [List.filter_cons, List.filter_cons]
      simp only [beq_iff_eq, hb]
      rw [if_neg (by simp [hb]), if_neg (by simp [hb])]
      exact ih

theorem filter_orderedInsert_ne (a : Post) (d : DateTime) (h : ¬ a.date = d) :
    ∀ l, (List.orderedInsert postDateGe a l).filter (fun p => p.date == d) =
      l.filter (fun p => p.date == d) := by
  intro l
  induction l with
  | nil => simp [List.orderedInsert, h]
  | cons b l ih =>
    rw [List.orderedInsert]
    by_cases hr : postDateGe a b
    · rw [if_pos hr]
      rw [List.filter_cons]
      rw [if_neg (by simpa using h)]
    · rw [if_neg hr]
      rw [List.filter_cons, List.filter_cons]
      by_cases hb : b.date = d
      · rw [if_pos (by simpa using hb), if_pos (by simpa using hb)]
        rw [ih]
      · rw [if_neg (by simpa using hb), if_neg (by simpa using hb)]
        exact ih

theorem filter_insertionSort (d : DateTime) :
    ∀ l : List Post,
      (List.insertionSort postDateGe l).filter (fun p => p.date == d) =
        l.filter (fun p => p.date == d) := by
  intro l
  induction l with
  | nil => rfl
  | cons a l ih =>
    rw [List.insertionSort]
    by_cases h : a.date = d
    · rw [filter_orderedInsert_eq a d h, ih, List.filter_cons,
        if_pos (by simpa using h)]
    · rw [filter_orderedInsert_ne a d h, ih, List.filter_cons,
        if_neg (by simpa using h)]

/-- C6: `load_posts` returns exactly the successfully parsed posts (a
permutation of the parse successes in discovery order), pairwise sorted by
descending date, with equal-dated posts kept in discovery order (the filter
on any fixed date is unchanged), and a file whose parse raises is simply
skipped — it never makes the call fail. -/
theorem C6_load_posts_sorted (parse : String → Except String Post)
    (files : List String) :
    List.Perm (load_posts true parse files)
      (files.filterMap fun f => (parse f).toOption) ∧
    List.Sorted postDateGe (load_posts true parse files) ∧
    (∀ d : DateTime,
      (load_posts true parse files).filter (fun p => p.date == d) =
        (files.filterMap fun f => (parse f).toOption).filter
          (fun p => p.date == d)) ∧
    (∀ pre bad rest e, parse bad = .error e →
      load_posts true parse (pre ++ bad :: rest) =
        load_posts true parse (pre ++ rest)) := by
  refine ⟨?_, ?_, ?_, ?_⟩
  · show List.Perm (if true = true then _ else []) _
    rw [if_pos rfl]
    exact List.perm_insertionSort postDateGe _
  · show List.Sorted postDateGe (if true = true then _ else [])
    rw [if_pos rfl]
    exact List.sorted_insertionSort postDateGe _
  · intro d
    show (if true = true then _ else []).filter _ = _
    rw [if_pos rfl]
    exact filter_insertionSort d _
  · intro pre bad rest e he
    have hnone : (parse bad).toOption = none := by
      rw [he]
      rfl
    unfold load_posts
    rw [if_pos rfl, if_pos rfl]
    rw [List.filterMap_append, List.filterMap_append, List.filterMap_cons]
    simp [hnone]

/-- Witness for C6: a file whose parse raises (a missing `title`) is skipped
without failing the call, at a concrete parse function and file list. -/
theorem C6_load_posts_sorted_witness :
    load_posts true
        (fun f => if f == "bad.md" then
            .error "文章缺少必需的 frontmatter 字段: title" else .ok postB)
        (["a.md"] ++ "bad.md" :: ["b.md"]) =
      load_posts true
        (fun f => if f == "bad.md" then
            .error "文章缺少必需的 frontmatter 字段: title" else .ok postB)
        (["a.md"] ++ ["b.md"]) :=
  (C6_load_posts_sorted
      (fun f => if f == "bad.md" then
          .error "文章缺少必需的 frontmatter 字段: title" else .ok postB)
      []).2.2.2
    ["a.md"] "bad.md" ["b.md"] "文章缺少必需的 frontmatter 字段: title" rfl

/-- Counterexample to C7: when writing rss.xml fails (here: "disk full"),
`_generate_pages` does NOT abort — the `GenerationError` raised by
`_write_file` is swallowed inside `_generate_rss`, the RSS step is skipped,
and the sitemap and search-index steps still run to completion. -/
theorem C7_rss_write_failure_counterexample :
    generate_pages
        (fun p => if p == "rss.xml" then .error "disk full" else .ok ())
        true true =
      .ok ["index", "posts", "tags", "archive", "rss-skipped", "sitemap",
        "search-index"] := by
  rfl

/-- C7 as amended: a filesystem write failure while producing rss.xml (and
likewise sitemap.xml or search-index.json) is caught inside that generation
step: the step is skipped and the remaining generation steps continue; the
error does not propagate out of `_generate_pages`. -/
theorem C7_optional_steps_swallow_write_errors
    (write : String → Except String Unit) (e : String) (gen_sitemap : Bool)
    (hrss : write "rss.xml" = .error e)
    (hok : ∀ p, p ≠ "rss.xml" → write p = .ok ()) :
    generate_rss write = false ∧
    generate_pages write true gen_sitemap =
      .ok (["index", "posts", "tags", "archive", "rss-skipped"] ++
        (if gen_sitemap then ["sitemap"] else []) ++ ["search-index"]) ∧
    (∀ (w2 : String → Except String Unit) e2,
      w2 "sitemap.xml" = .error e2 → generate_sitemap w2 = false) ∧
    (∀ (w3 : String → Except String Unit) e3,
      w3 "search-index.json" = .error e3 → generate_search_index w3 = false) := by
  have hidx := hok "index.html" (by decide)
  have hpost := hok "posts/welcome.html" (by decide)
  have htag := hok "tags/python.html" (by decide)
  have harch := hok "archive.html" (by decide)
  have hsite := hok "sitemap.xml" (by decide)
  have hsearch := hok "search-index.json" (by decide)
  refine ⟨?_, ?_, ?_, ?_⟩
  · unfold generate_rss write_file
    rw [hrss]
  · unfold generate_pages write_file generate_archive generate_rss
      generate_sitemap generate_search_index write_file
    rw [hidx, hpost, htag, harch, hrss, hsite, hsearch]
    cases gen_sitemap <;> rfl
  · intro w2 e2 h2
    unfold generate_sitemap write_file
    rw [h2]
  · intro w3 e3 h3
    unfold generate_search_index write_file
    rw [h3]

/-- Witness for amended C7 at the concrete failing writer. -/
theorem C7_optional_steps_swallow_write_errors_witness :
    generate_rss
        (fun p => if p == "rss.xml" then .error "disk full" else .ok ()) =
      false :=
  (C7_optional_steps_swallow_write_errors
      (fun p => if p == "rss.xml" then .error "disk full" else .ok ())
      "disk full" true rfl
      (fun p hp => by simp [hp])).1

/-- C9: the tag map sends every tag to exactly the posts carrying it — for
posts tagged `["a","b"]` and `["b"]`, tag `a` has 1 post and tag `b` has 2
posts whichever tag is seen first — and the tags index lists the tags sorted
by name (`a` before `b`) with their post counts. -/
theorem C9_tag_aggregation :
    get_all_tags [postAB, postB] =
      [("a", [postAB]), ("b", [postAB, postB])] ∧
    get_all_tags [postB, postAB] =
      [("b", [postB, postAB]), ("a", [postAB])] ∧
    tags_stats (get_all_tags [postAB, postB]) =
      [("a", 1, [postAB]), ("b", 2, [postAB, postB])] ∧
    tags_stats (get_all_tags [postB, postAB]) =
      [("a", 1, [postAB]), ("b", 2, [postB, postAB])] := by
  refine ⟨rfl, rfl, ?_, ?_⟩ <;>
    simp only [tags_stats, sortTagsByName, get_all_tags, List.foldl,
      add_tag, List.insertionSort, List.orderedInsert] <;>
    norm_num <;> decide

theorem relativeSegs_append :
    ∀ root rel : List String, relativeSegs root (root ++ rel) = some rel := by
  intro root rel
  induction root with
  | nil => rfl
  | cons r rest ih => simp [relativeSegs, ih]

/-- C5: per image reference `![alt](target)`: an absolute URL
(`http://`, `https://`, `//`) or absolute path (`/...`) target is left
unmodified and nothing is recorded; a relative target resolving to an
existing file under the content root is rewritten to
`![alt](/assets/images/{path relative to content root})` with the absolute
path recorded; a missing file or one outside the content root leaves the
reference unmodified and unrecorded.  The last conjunct runs the whole
substitution pass on the spec's example body. -/
theorem C5_image_rewriting
    (is_file : List String → Bool) (md_root md_parent : List String)
    (alt target : String) :
    ((strStartsWith target "http://" || strStartsWith target "https://" ||
        strStartsWith target "//" || strStartsWith target "/") = true →
      replace_image is_file md_root md_parent alt target =
        (imageRef alt target, none)) ∧
    (∀ rel,
      (strStartsWith target "http://" || strStartsWith target "https://" ||
        strStartsWith target "//" || strStartsWith target "/") = false →
      resolveSegs (md_parent ++ splitSegs target) = md_root ++ rel →
      is_file (md_root ++ rel) = true →
      replace_image is_file md_root md_parent alt target =
        ("![" ++ alt ++ "](/assets/images/" ++ joinSegs rel ++ ")",
         some (md_root ++ rel))) ∧
    ((strStartsWith target "http://" || strStartsWith target "https://" ||
        strStartsWith target "//" || strStartsWith target "/") = false →
      is_file (resolveSegs (md_parent ++ splitSegs target)) = false →
      replace_image is_file md_root md_parent alt target =
        (imageRef alt target, none)) ∧
    ((strStartsWith target "http://" || strStartsWith target "https://" ||
        strStartsWith target "//" || strStartsWith target "/") = false →
      is_file (resolveSegs (md_parent ++ splitSegs target)) = true →
      relativeSegs md_root (resolveSegs (md_parent ++ splitSegs target)) =
        none →
      replace_image is_file md_root md_parent alt target =
        (imageRef alt target, none)) ∧
    process_markdown_images
        (fun p => p == ["content", "posts", "img", "a.png"]) ["content"]
        ["content", "posts"]
        "intro ![x](img/a.png) mid ![y](http://example.com/a.png) end" =
      ("intro ![x](/assets/images/posts/img/a.png) mid ![y](http://example.com/a.png) end",
       [["content", "posts", "img", "a.png"]]) := by
  refine ⟨?_, ?_, ?_, ?_, ?_⟩
  · intro h
    by_cases hx : (strStartsWith target "http://" ||
        strStartsWith target "https://" || strStartsWith target "//") = true
    · simp [replace_image, hx]
    · have h4 : strStartsWith target "/" = true := by
        rcases Bool.or_eq_true_iff.mp h with h1 | h1
        · exact absurd h1 hx
        · exact h1
      simp only [Bool.not_eq_true] at hx
      simp [replace_image, hx, h4]
  · intro rel h hres hfile
    have hx : (strStartsWith target "http://" ||
        strStartsWith target "https://" || strStartsWith target "//") = false := by
      rcases Bool.or_eq_false_iff.mp h with ⟨h1, _⟩
      exact h1
    have h4 : strStartsWith target "/" = false :=
      (Bool.or_eq_false_iff.mp h).2
    simp [replace_image, hx, h4, hres, hfile, relativeSegs_append]
  · intro h hfile
    have hx : (strStartsWith target "http://" ||
        strStartsWith target "https://" || strStartsWith target "//") = false :=
      (Bool.or_eq_false_iff.mp h).1
    have h4 : strStartsWith target "/" = false :=
      (Bool.or_eq_false_iff.mp h).2
    simp [replace_image, hx, h4, hfile]
  · intro h hfile hrel
    have hx : (strStartsWith target "http://" ||
        strStartsWith target "https://" || strStartsWith target "//") = false :=
      (Bool.or_eq_false_iff.mp h).1
    have h4 : strStartsWith target "/" = false :=
      (Bool.or_eq_false_iff.mp h).2
    simp [replace_image, hx, h4, hfile, hrel]
  · rfl

/-- Witness for C5: one relative reference to an existing file under the
content root is rewritten and recorded, at concrete inputs. -/
theorem C5_image_rewriting_witness :
    replace_image (fun p => p == ["content", "posts", "img", "a.png"])
        ["content"] ["content", "posts"] "x" "img/a.png" =
      ("![" ++ "x" ++ "](/assets/images/" ++
          joinSegs ["posts", "img", "a.png"] ++ ")",
       some (["content"] ++ ["posts", "img", "a.png"])) :=
  (C5_image_rewriting (fun p => p == ["content", "posts", "img", "a.png"])
      ["content"] ["content", "posts"] "x" "img/a.png").2.1
    ["posts", "img", "a.png"] rfl rfl rfl

end Mblog
